import Mathlib

/-!
Shallow embedding of the go-redef analyzer (src/redef.go) and proofs about
the claims of its specification.

Modelling conventions:
* Node identity (Go pointer identity of ast nodes) is modelled by a numeric
  uid carried by every node; object identity of types.Object values is
  modelled by structural equality of the Obj record (a uid field makes
  records with distinct identity distinct).
* token.Pos is a Nat; pass.Fset.Position is an explicit function from Nat
  to a Position record (filename and line).
* The parent map built by buildParentMap via inspector.WithStack records,
  for every node, the node below the top of the traversal stack, which is
  exactly the structural parent.  All consumers of the map walk parent
  chains upward from a visited assignment, so the map is embedded as the
  ancestor path (innermost ancestor first) carried alongside each visited
  assignment by the preorder traversal, mirroring the inspector stack.
* The expression and statement grammars are the sub-grammar of go/ast that
  the analyzer inspects (identifiers, literals, binary forms; assignment,
  block, if, for, range, return, branch, expression statements; function
  declarations without function literals).
-/

/-- A resolved object (types.Object); isVar records whether the dynamic
type is *types.Var. -/
structure Obj where
  uid : Nat
  name : String
  pos : Nat
  isVar : Bool
deriving DecidableEq, Repr

/-- The file/line part of token.Position as produced by Fset.Position. -/
structure Position where
  filename : String
  line : Nat
deriving DecidableEq, Repr

/-- The eight boolean analyzer flags, in the order of the var block of
redef.go. -/
structure Config where
  ignoreTests : Bool
  allowShortIf : Bool
  allowSameLine : Bool
  allowDeadOuter : Bool
  allowErrShadow : Bool
  allowLoopShadow : Bool
  allowTableTests : Bool
  allowGuardShadow : Bool
deriving DecidableEq, Repr

/-- Expressions: identifier (with node uid, position, name), basic
literal, and a binary composite covering all other expression forms the
analyzer only traverses for identifiers. -/
inductive Expr where
  | ident (uid : Nat) (pos : Nat) (name : String)
  | lit (uid : Nat) (pos : Nat)
  | bin (uid : Nat) (pos : Nat) (l : Expr) (r : Expr)

/-- Statements of the modelled sub-grammar.  Bodies of if/for/range are
Stmt values that are blocks in well formed trees (go/ast types them as
*ast.BlockStmt). -/
inductive Stmt where
  | assign (uid : Nat) (isDefine : Bool) (lhs : List Expr) (rhs : List Expr)
  | block (uid : Nat) (body : List Stmt)
  | ifS (uid : Nat) (ini : Option Stmt) (cond : Expr) (body : Stmt) (els : Option Stmt)
  | forS (uid : Nat) (ini : Option Stmt) (cond : Option Expr) (post : Option Stmt) (body : Stmt)
  | rangeS (uid : Nat) (key : Option Expr) (val : Option Expr) (x : Expr) (body : Stmt)
  | ret (uid : Nat) (res : List Expr)
  | branch (uid : Nat)
  | exprS (uid : Nat) (e : Expr)

/-- A function declaration: its own uid, the uid of its body block, and
the list of body statements. -/
structure FuncDecl where
  uid : Nat
  bodyUid : Nat
  body : List Stmt

/-- One file of the compilation unit. -/
structure File where
  uid : Nat
  decls : List FuncDecl

/-- A node as it occurs on the ancestor path of a visited assignment:
a statement, a function declaration, or the file root. -/
inductive PNode where
  | stmt (s : Stmt)
  | fdecl (f : FuncDecl)
  | fileN (uid : Nat)

/-- Node uid of a statement (models pointer identity). -/
def stmtUid : Stmt → Nat
  | Stmt.assign u _ _ _ => u
  | Stmt.block u _ => u
  | Stmt.ifS u _ _ _ _ => u
  | Stmt.forS u _ _ _ _ => u
  | Stmt.rangeS u _ _ _ _ => u
  | Stmt.ret u _ => u
  | Stmt.branch u => u
  | Stmt.exprS u _ => u

/-- Position of an expression node. -/
def exprPos : Expr → Nat
  | Expr.ident _ p _ => p
  | Expr.lit _ p => p
  | Expr.bin _ p _ _ => p

/-- AssignStmt.Pos() is the position of its first left-hand expression
(0 for the empty left-hand list, which go/ast never produces). -/
def assignPos : Stmt → Nat
  | Stmt.assign _ _ (e :: _) _ => exprPos e
  | _ => 0

/-- Left-hand expressions of an assignment. -/
def assignLhs : Stmt → List Expr
  | Stmt.assign _ _ lhs _ => lhs
  | _ => []

/-- Statement list of a block node ([] on non-blocks, which the Go type
*ast.BlockStmt rules out at the call sites). -/
def blockList : Stmt → List Stmt
  | Stmt.block _ l => l
  | _ => []

/-- Binding resolution as supplied by the front end: Defs and Uses keyed
by identifier uid, and for each object uid the chain of scopes from the
scope holding the object outward (Obj.Parent() and Scope.Parent()); a
scope is its name-to-object table, one object per name. -/
structure Info where
  defs : Nat → Option Obj
  uses : Nat → Option Obj
  scopeOf : Nat → List (List Obj)

/-- Scope.Lookup: the object of the given name declared in the scope. -/
def scopeLookup (s : List Obj) (name : String) : Option Obj :=
  s.find? (fun o => o.name == name)

/-- The outward walk of findOuter over the strictly enclosing scopes: a
same-named candidate that is not a plain variable or does not precede the
identifier is discarded and the walk continues. -/
def findOuterWalk (name : String) (identPos : Nat) : List (List Obj) → Option Obj
  | [] => none
  | s :: rest =>
    match scopeLookup s name with
    | some obj =>
      if obj.isVar && decide (obj.pos < identPos) then some obj
      else findOuterWalk name identPos rest
    | none => findOuterWalk name identPos rest

/-- findOuter of redef.go: start from the scope of the inner object
(none models a nil Parent()) and walk the strictly enclosing scopes. -/
def findOuter (info : Info) (name : String) (identPos : Nat) (inner : Obj) : Option Obj :=
  match info.scopeOf inner.uid with
  | [] => none
  | _ :: rest => findOuterWalk name identPos rest

/-- Identifier uids of an expression subtree (ast.Inspect order). -/
def exprIdents : Expr → List Nat
  | Expr.ident u _ _ => [u]
  | Expr.lit _ _ => []
  | Expr.bin _ _ l r => exprIdents l ++ exprIdents r

/-- Identifier uids of a list of expressions. -/
def exprsIdents (l : List Expr) : List Nat :=
  l.flatMap exprIdents

mutual
/-- Identifier uids of a statement subtree (ast.Inspect visits every
nested node). -/
def stmtIdents : Stmt → List Nat
  | Stmt.assign _ _ lhs rhs => exprsIdents lhs ++ exprsIdents rhs
  | Stmt.block _ body => stmtsIdents body
  | Stmt.ifS _ ini cond body els =>
      optIdents ini ++ exprIdents cond ++ stmtIdents body ++ optIdents els
  | Stmt.forS _ ini cond post body =>
      optIdents ini ++ (match cond with | some c => exprIdents c | none => []) ++
      optIdents post ++ stmtIdents body
  | Stmt.rangeS _ k v x body =>
      (match k with | some e => exprIdents e | none => []) ++
      (match v with | some e => exprIdents e | none => []) ++
      exprIdents x ++ stmtIdents body
  | Stmt.ret _ res => exprsIdents res
  | Stmt.branch _ => []
  | Stmt.exprS _ e => exprIdents e

/-- Identifier uids of a statement list. -/
def stmtsIdents : List Stmt → List Nat
  | [] => []
  | s :: rest => stmtIdents s ++ stmtsIdents rest

/-- Identifier uids of an optional statement. -/
def optIdents : Option Stmt → List Nat
  | none => []
  | some s => stmtIdents s
end

/-- stmtUsesOuter: some identifier in the subtree resolves, through the
Uses table, to the outer object (object identity). -/
def stmtUsesOuter (info : Info) (outer : Obj) (s : Stmt) : Bool :=
  (stmtIdents s).any (fun u => decide (info.uses u = some outer))

/-- condUsesOuterOnly: the condition subtree references the outer
object. -/
def condUsesOuterOnly (info : Info) (outer : Obj) (cond : Expr) : Bool :=
  (exprIdents cond).any (fun u => decide (info.uses u = some outer))

mutual
/-- Preorder collection of every assignment statement together with its
ancestor path (innermost ancestor first), mirroring the inspector stack
that buildParentMap records; expressions contain no statements in the
modelled sub-grammar, so assignments have no statement children. -/
def collectStmt (path : List PNode) : Stmt → List (Stmt × List PNode)
  | Stmt.assign u d lhs rhs => [(Stmt.assign u d lhs rhs, path)]
  | Stmt.block u body =>
      collectStmts (PNode.stmt (Stmt.block u body) :: path) body
  | Stmt.ifS u ini cond body els =>
      collectOpt (PNode.stmt (Stmt.ifS u ini cond body els) :: path) ini ++
      collectStmt (PNode.stmt (Stmt.ifS u ini cond body els) :: path) body ++
      collectOpt (PNode.stmt (Stmt.ifS u ini cond body els) :: path) els
  | Stmt.forS u ini cond post body =>
      collectOpt (PNode.stmt (Stmt.forS u ini cond post body) :: path) ini ++
      collectOpt (PNode.stmt (Stmt.forS u ini cond post body) :: path) post ++
      collectStmt (PNode.stmt (Stmt.forS u ini cond post body) :: path) body
  | Stmt.rangeS u k v x body =>
      collectStmt (PNode.stmt (Stmt.rangeS u k v x body) :: path) body
  | Stmt.ret _ _ => []
  | Stmt.branch _ => []
  | Stmt.exprS _ _ => []

/-- Preorder collection over a statement list. -/
def collectStmts (path : List PNode) : List Stmt → List (Stmt × List PNode)
  | [] => []
  | s :: rest => collectStmt path s ++ collectStmts path rest

/-- Preorder collection over an optional statement. -/
def collectOpt (path : List PNode) : Option Stmt → List (Stmt × List PNode)
  | none => []
  | some s => collectStmt path s
end

/-- Collection over one function declaration: its body statements sit in
the body block, whose parent is the declaration, whose parent is the
file. -/
def collectFuncDecl (fileUid : Nat) (f : FuncDecl) : List (Stmt × List PNode) :=
  collectStmts
    [PNode.stmt (Stmt.block f.bodyUid f.body), PNode.fdecl f, PNode.fileN fileUid]
    f.body

/-- Collection over one file. -/
def collectFile (file : File) : List (Stmt × List PNode) :=
  file.decls.flatMap (collectFuncDecl file.uid)

/-- First statement node on a parent chain (the walk of findOwningStmt:
every chain element is checked for being an ast.Stmt). -/
def firstStmtInChain : List PNode → Option Stmt
  | [] => none
  | PNode.stmt s :: _ => some s
  | PNode.fdecl _ :: rest => firstStmtInChain rest
  | PNode.fileN _ :: rest => firstStmtInChain rest

/-- findOwningStmt: walk upward from the node (the node itself first)
until a statement is found. -/
def findOwningStmt (n : Stmt) (path : List PNode) : Option Stmt :=
  firstStmtInChain (PNode.stmt n :: path)

/-- First block node on a parent chain (the walk of
findEnclosingBlock). -/
def firstBlockInChain : List PNode → Option Stmt
  | [] => none
  | PNode.stmt (Stmt.block u body) :: _ => some (Stmt.block u body)
  | PNode.stmt _ :: rest => firstBlockInChain rest
  | PNode.fdecl _ :: rest => firstBlockInChain rest
  | PNode.fileN _ :: rest => firstBlockInChain rest

/-- findEnclosingBlock: walk upward from the node (the node itself
first) until a block is found. -/
def findEnclosingBlock (n : Stmt) (path : List PNode) : Option Stmt :=
  firstBlockInChain (PNode.stmt n :: path)

/-- findFuncBody: walk upward and return the body of the first function
declaration met as a parent (function literals are outside the modelled
sub-grammar). -/
def findFuncBody : List PNode → Option Stmt
  | [] => none
  | PNode.fdecl f :: _ => some (Stmt.block f.bodyUid f.body)
  | PNode.stmt _ :: rest => findFuncBody rest
  | PNode.fileN _ :: rest => findFuncBody rest

/-- Whether a path node is the block with the given uid (the identity
comparison parent[cur] == block of findTopLevelStmt). -/
def pnodeIsBlockUid (bUid : Nat) : PNode → Bool
  | PNode.stmt (Stmt.block u _) => u == bUid
  | _ => false

/-- The walk of findTopLevelStmt over the chain cur :: ancestors: when
the parent of cur is the target block, return cur if cur is a statement,
otherwise give up; when the chain ends, return the fallback. -/
def topLevelWalk (fallback : Stmt) (bUid : Nat) : List PNode → Stmt
  | [] => fallback
  | cur :: rest =>
    match rest with
    | [] => fallback
    | next :: _ =>
      if pnodeIsBlockUid bUid next then
        match cur with
        | PNode.stmt s => s
        | _ => fallback
      else topLevelWalk fallback bUid rest

/-- findTopLevelStmt: the direct child of the target block that is an
ancestor of (or equal to) stmt; stmt itself if none is found or the
block is absent. -/
def findTopLevelStmt (stmt : Stmt) (path : List PNode) : Option Stmt → Stmt
  | none => stmt
  | some b => topLevelWalk stmt (stmtUid b) (PNode.stmt stmt :: path)

/-- strings.HasSuffix, modelled on the character sequence of the two
strings. -/
def hasSuffix (s suffix : String) : Bool :=
  suffix.data.isSuffixOf s.data

/-- skipFile of redef.go: nodes of files named *_test.go are skipped
exactly when the ignore-tests flag is NOT set (the guard in the source
is if !ignoreTests). -/
def skipFile (fset : Nat → Position) (cfg : Config) (nPos : Nat) : Bool :=
  if !cfg.ignoreTests then hasSuffix ((fset nPos).filename) "_test.go" else false

/-- skipForShortIf: the parent of the assignment is an if statement, and
the flag is set. -/
def skipForShortIf (cfg : Config) (parentOfAs : Option PNode) : Bool :=
  (match parentOfAs with
   | some (PNode.stmt (Stmt.ifS _ _ _ _ _)) => true
   | _ => false) && cfg.allowShortIf

/-- skipForSameLine: the identifier and the declaration of the outer
object sit on the same line, and the flag is set; only line numbers are
compared. -/
def skipForSameLine (fset : Nat → Position) (cfg : Config) (identPos : Nat) (outer : Obj) : Bool :=
  ((fset identPos).line == (fset outer.pos).line) && cfg.allowSameLine

/-- skipForLoopShadow: the flag is set and the parent of the owning
statement is a for or a range statement. -/
def skipForLoopShadow (cfg : Config) (parentOfStmt : Option PNode) : Bool :=
  cfg.allowLoopShadow &&
    ((match parentOfStmt with
      | some (PNode.stmt (Stmt.forS _ _ _ _ _)) => true
      | _ => false) ||
     (match parentOfStmt with
      | some (PNode.stmt (Stmt.rangeS _ _ _ _ _)) => true
      | _ => false))

/-- outerUsedLater: the outer object is referenced in a statement after
stmt in the block (false when the block is absent or stmt is not a
member of its list). -/
def outerUsedLater (info : Info) (outer : Obj) (stmt : Stmt) : Option Stmt → Bool
  | none => false
  | some b =>
    match (blockList b).findIdx? (fun s => stmtUid s == stmtUid stmt) with
    | none => false
    | some idx => ((blockList b).drop (idx + 1)).any (stmtUsesOuter info outer)

/-- skipForDeadOuter (the source conjoins the flag twice). -/
def skipForDeadOuter (cfg : Config) (info : Info) (outer : Obj) (stmt : Stmt)
    (block : Option Stmt) : Bool :=
  cfg.allowDeadOuter && (!outerUsedLater info outer stmt block && cfg.allowDeadOuter)

/-- skipForErrShadow: both names are err, flag set. -/
def skipForErrShadow (cfg : Config) (identName : String) (outer : Obj) : Bool :=
  cfg.allowErrShadow && (identName == "err" && outer.name == "err")

/-- Whether a statement is a return or a branch statement. -/
def isRetOrBranch : Stmt → Bool
  | Stmt.ret _ _ => true
  | Stmt.branch _ => true
  | _ => false

/-- hasValidGuardBody: the block holds exactly one statement, a return
or a branch, which does not reference the outer object. -/
def hasValidGuardBody (info : Info) (outer : Obj) : List Stmt → Bool
  | [b] => isRetOrBranch b && !stmtUsesOuter info outer b
  | _ => false

/-- isValidGuardIf: an if statement without else whose condition
references the outer object and whose body is a valid guard body. -/
def isValidGuardIf (info : Info) (outer : Obj) : Stmt → Bool
  | Stmt.ifS _ _ cond body els =>
    match els with
    | some _ => false
    | none => condUsesOuterOnly info outer cond && hasValidGuardBody info outer (blockList body)
  | _ => false

/-- The scan loop of isGuardClauseOnly: stop (accepting) at the first
statement identical to stmt; ignore statements not referencing the outer
object; reject on the first referencing statement that is not a valid
guard if. -/
def guardScan (info : Info) (outer : Obj) (stmt : Stmt) : List Stmt → Bool
  | [] => true
  | s :: rest =>
    if stmtUid s == stmtUid stmt then true
    else if !stmtUsesOuter info outer s then guardScan info outer stmt rest
    else if !isValidGuardIf info outer s then false
    else guardScan info outer stmt rest

/-- isGuardClauseOnly of redef.go (false when the block is absent). -/
def isGuardClauseOnly (info : Info) (outer : Obj) (stmt : Stmt) : Option Stmt → Bool
  | none => false
  | some b => guardScan info outer stmt (blockList b)

/-- skipForGuardShadow. -/
def skipForGuardShadow (cfg : Config) (info : Info) (outer : Obj) (stmt : Stmt)
    (block : Option Stmt) : Bool :=
  isGuardClauseOnly info outer stmt block && cfg.allowGuardShadow

/-- isTableTestPattern of redef.go: single identifier on each side, the
parent of the assignment is a range statement whose value is an
identifier of the same name on both sides, all three objects resolve,
and the right-hand use is the range value object. -/
def isTableTestPattern (info : Info) (as : Stmt) (parentOfAs : Option PNode) : Bool :=
  match as with
  | Stmt.assign _ _ [Expr.ident lUid _ lName] [Expr.ident rUid _ rName] =>
    match parentOfAs with
    | some (PNode.stmt (Stmt.rangeS _ _ val _ _)) =>
      match val with
      | some (Expr.ident vUid _ vName) =>
        lName == vName && rName == vName &&
        (match info.defs vUid, info.defs lUid, info.uses rUid with
         | some oRange, some _oLhs, some oRhs => decide (oRange = oRhs)
         | _, _, _ => false)
      | _ => false
    | _ => false
  | _ => false

/-- skipForTableTests. -/
def skipForTableTests (cfg : Config) (info : Info) (as : Stmt) (parentOfAs : Option PNode) : Bool :=
  isTableTestPattern info as parentOfAs && cfg.allowTableTests

/-- The range-and-break loop of shouldSkipShadow over the eagerly built
list of check results: the named result starts false, takes each element
in turn, and the loop stops at the first true. -/
def skipLoop (acc : Bool) : List Bool → Bool
  | [] => acc
  | b :: rest => if b then b else skipLoop b rest

/-- shouldSkipShadow of redef.go.  The owning statement of the visited
assignment is the assignment itself (an assignment is a statement), so
the parent of the owning statement and the parent of the assignment are
both the head of the ancestor path. -/
def shouldSkipShadow (fset : Nat → Position) (cfg : Config) (info : Info)
    (identName : String) (identPos : Nat) (outer : Obj)
    (as : Stmt) (path : List PNode) : Bool :=
  match findEnclosingBlock as path with
  | none => false
  | some _block =>
    match findOwningStmt as path with
    | none => false
    | some stmt =>
      let funcBody := findFuncBody path
      let topStmt :=
        match funcBody with
        | none => stmt
        | some fb => findTopLevelStmt stmt path (some fb)
      skipLoop false
        [skipForShortIf cfg path.head?,
         skipForSameLine fset cfg identPos outer,
         skipForLoopShadow cfg path.head?,
         skipForDeadOuter cfg info outer topStmt funcBody,
         skipForErrShadow cfg identName outer,
         skipForGuardShadow cfg info outer topStmt funcBody,
         skipForTableTests cfg info as path.head?]

/-- A diagnostic: position and message. -/
structure Diag where
  pos : Nat
  msg : String
deriving DecidableEq, Repr

/-- The Reportf message template of redef.go. -/
def reportMsg (name : String) : String :=
  "variable \"" ++ name ++ "\" is redefined and shadows an outer \"" ++ name ++ "\""

/-- The body of the left-hand loop of processAssign for a single
left-hand expression: skip non-identifiers, blank identifiers,
identifiers without a defining object or without an outer binding, and
identifiers whose shadow the pipeline suppresses; report the rest. -/
def processLhs (fset : Nat → Position) (cfg : Config) (info : Info)
    (as : Stmt) (path : List PNode) (lhs : Expr) : Option Diag :=
  match lhs with
  | Expr.ident uid pos name =>
    if name == "_" then none
    else
      match info.defs uid with
      | none => none
      | some obj =>
        match findOuter info name pos obj with
        | none => none
        | some outer =>
          if shouldSkipShadow fset cfg info name pos outer as path then none
          else some ⟨pos, reportMsg name⟩
  | _ => none

/-- processAssign of redef.go: one report at most per left-hand
identifier. -/
def processAssign (fset : Nat → Position) (cfg : Config) (info : Info)
    (as : Stmt) (path : List PNode) : List Diag :=
  (assignLhs as).filterMap (processLhs fset cfg info as path)

/-- The Preorder callback of run: the node filter only yields
assignments; skip nodes of skipped files and assignments that are not
declare-or-reuse. -/
def analyzeNode (fset : Nat → Position) (cfg : Config) (info : Info)
    (p : Stmt × List PNode) : List Diag :=
  if skipFile fset cfg (assignPos p.1) then []
  else
    match p.1 with
    | Stmt.assign u d lhs rhs =>
      if d then processAssign fset cfg info (Stmt.assign u d lhs rhs) p.2 else []
    | _ => []

/-- run of redef.go over one file: visit every assignment in preorder
and concatenate the emitted diagnostics in order. -/
def run (fset : Nat → Position) (cfg : Config) (info : Info) (file : File) : List Diag :=
  (collectFile file).flatMap (analyzeNode fset cfg info)

/-- The sequential early-return reading of the rule pipeline: consult
the seven checks in the fixed order and stop at the first one that
returns true (the structure of the run body of the earlier revision of
the analyzer, with the arguments the current revision passes). -/
def shouldSkipShadowSeq (fset : Nat → Position) (cfg : Config) (info : Info)
    (identName : String) (identPos : Nat) (outer : Obj)
    (as : Stmt) (path : List PNode) : Bool :=
  match findEnclosingBlock as path with
  | none => false
  | some _block =>
    match findOwningStmt as path with
    | none => false
    | some stmt =>
      let funcBody := findFuncBody path
      let topStmt :=
        match funcBody with
        | none => stmt
        | some fb => findTopLevelStmt stmt path (some fb)
      if skipForShortIf cfg path.head? then true
      else if skipForSameLine fset cfg identPos outer then true
      else if skipForLoopShadow cfg path.head? then true
      else if skipForDeadOuter cfg info outer topStmt funcBody then true
      else if skipForErrShadow cfg identName outer then true
      else if skipForGuardShadow cfg info outer topStmt funcBody then true
      else if skipForTableTests cfg info as path.head? then true
      else false

/-- Spec side, for the guard-clause claim: the guard shape required of a
referencing statement, stated as in the specification text: a
single-branch conditional with no alternative branch, whose condition
subtree references the binding, and whose body is exactly one statement
that is a return or an unconditional jump and does not itself reference
the binding. -/
def specGuardShape (info : Info) (outer : Obj) : Stmt → Bool
  | Stmt.ifS _ _ cond body none =>
      condUsesOuterOnly info outer cond &&
      (match blockList body with
       | [b] => isRetOrBranch b && !stmtUsesOuter info outer b
       | _ => false)
  | _ => false

/-- Spec side: guard-clause-only as the specification words it — every
statement strictly preceding the given one (its first occurrence) that
references the binding has the guard shape; statements not referencing
the binding are ignored. -/
def specGuardClauseOnly (info : Info) (outer : Obj) (stmt : Stmt) (l : List Stmt) : Bool :=
  (l.takeWhile (fun s => !(stmtUid s == stmtUid stmt))).all
    (fun s => !stmtUsesOuter info outer s || specGuardShape info outer s)

/-- Spec side, for the diagnostic-count bound: whether one left-hand
expression is an identifier with a defining object for which the scope
resolver finds an outer binding. -/
def candLhs (info : Info) : Expr → Option Nat
  | Expr.ident uid pos name =>
    match info.defs uid with
    | some obj =>
      match findOuter info name pos obj with
      | some _ => some uid
      | none => none
    | none => none
  | _ => none

/-- Spec side, for the diagnostic-count bound: the left-hand identifiers
of declare-or-reuse assignments for which the scope resolver finds an
outer binding. -/
def lhsCandidates (info : Info) (file : File) : List Nat :=
  (collectFile file).flatMap (fun p =>
    match p.1 with
    | Stmt.assign _ d lhs _ => if d then lhs.filterMap (candLhs info) else []
    | _ => [])

/-- One analysis pass with its surrounding state: the configuration (the
only state surviving across passes) and the diagnostics accumulated in
the reporting sink. -/
def runPass (fset : Nat → Position) (info : Info) (file : File)
    (st : Config × List Diag) : Config × List Diag :=
  (st.1, st.2 ++ run fset st.1 info file)

/-- Position table placing every token in main.go at line = offset. -/
def fsetMain : Nat → Position := fun p => ⟨"main.go", p⟩

/-- Position table placing every token in a_test.go at line = offset. -/
def fsetTest : Nat → Position := fun p => ⟨"a_test.go", p⟩

/-- The default configuration: every flag unset. -/
def cfg0 : Config := ⟨false, false, false, false, false, false, false, false⟩

/-- Configuration with only ignore-tests set. -/
def cfgIgnore : Config := ⟨true, false, false, false, false, false, false, false⟩

/-- Configuration with only allow-table-tests set. -/
def cfgTable : Config := ⟨false, false, false, false, false, false, true, false⟩

/-- Configuration with only allow-loop-shadow set. -/
def cfgLoop : Config := ⟨false, false, false, false, false, true, false, false⟩

/-- Configuration with only allow-same-line set. -/
def cfgSameLine : Config := ⟨false, false, true, false, false, false, false, false⟩

/-- Scenario D fixture: the loop value object of for _, tt := range
tests. -/
def objRangeTT : Obj := ⟨1, "tt", 10, true⟩

/-- Scenario D fixture: the object declared by tt := tt in the loop
body. -/
def objInnerTT : Obj := ⟨2, "tt", 20, true⟩

/-- Scenario D fixture: the assignment tt := tt. -/
def asD : Stmt := Stmt.assign 201 true [Expr.ident 102 20 "tt"] [Expr.ident 103 25 "tt"]

/-- Scenario D fixture: for _, tt := range tests { tt := tt }. -/
def rngD : Stmt :=
  Stmt.rangeS 202 (some (Expr.ident 105 9 "_")) (some (Expr.ident 101 10 "tt"))
    (Expr.ident 104 8 "tests") (Stmt.block 301 [asD])

/-- Scenario D fixture: the enclosing function declaration. -/
def fdD : FuncDecl := ⟨401, 402, [rngD]⟩

/-- Scenario D fixture: the file. -/
def fileD : File := ⟨501, [fdD]⟩

/-- Scenario D fixture: binding resolution — the left tt defines the
inner object, the right tt uses the range value object, and the scope of
the inner object sits directly inside the scope binding the range
value. -/
def infoD : Info :=
  ⟨fun u => if u = 101 then some objRangeTT else if u = 102 then some objInnerTT else none,
   fun u => if u = 103 then some objRangeTT else none,
   fun u => if u = 2 then [[objInnerTT], [objRangeTT]] else []⟩

/-- Scenario D fixture: the ancestor path of the assignment tt := tt as
the traversal produces it. -/
def pathD : List PNode :=
  [PNode.stmt (Stmt.block 301 [asD]), PNode.stmt rngD,
   PNode.stmt (Stmt.block 402 [rngD]), PNode.fdecl fdD, PNode.fileN 501]

/-- Loop-body fixture: the outer object x of the enclosing function. -/
def objOuterX : Obj := ⟨21, "x", 6, true⟩

/-- Loop-body fixture: the object declared by x := 1 in the loop
body. -/
def objInnerX : Obj := ⟨22, "x", 40, true⟩

/-- Loop-body fixture: the assignment x := 1. -/
def asF : Stmt := Stmt.assign 703 true [Expr.ident 704 40 "x"] [Expr.lit 705 41]

/-- Loop-body fixture: for { x := 1 }. -/
def forF : Stmt := Stmt.forS 701 none none none (Stmt.block 702 [asF])

/-- Loop-body fixture: the enclosing function declaration. -/
def fdF : FuncDecl := ⟨801, 802, [forF]⟩

/-- Loop-body fixture: the file. -/
def fileF : File := ⟨803, [fdF]⟩

/-- Loop-body fixture: binding resolution. -/
def infoF : Info :=
  ⟨fun u => if u = 704 then some objInnerX else none,
   fun _ => none,
   fun u => if u = 22 then [[objInnerX], [objOuterX]] else []⟩

/-- Loop-body fixture: the ancestor path of the assignment x := 1. -/
def pathF : List PNode :=
  [PNode.stmt (Stmt.block 702 [asF]), PNode.stmt forF,
   PNode.stmt (Stmt.block 802 [forF]), PNode.fdecl fdF, PNode.fileN 803]

/-- Orphan fixture for the missing-structure claim: an assignment x := 1
handed to processAssign with an empty ancestor chain (no enclosing block
reachable through the parent map). -/
def asC : Stmt := Stmt.assign 601 true [Expr.ident 602 30 "x"] [Expr.lit 603 31]

/-- Orphan fixture: the outer object named x. -/
def objC1 : Obj := ⟨11, "x", 5, true⟩

/-- Orphan fixture: the object declared by the orphan assignment. -/
def objC2 : Obj := ⟨12, "x", 30, true⟩

/-- Orphan fixture: binding resolution. -/
def infoC : Info :=
  ⟨fun u => if u = 602 then some objC2 else none,
   fun _ => none,
   fun u => if u = 12 then [[objC2], [objC1]] else []⟩

/-- The function-level statement the pipeline hands to the dead-outer
and guard checks: the visited assignment itself when no function body is
found, otherwise the top-level statement of the function body containing
the assignment (the owning statement of a visited assignment is the
assignment itself). -/
def pipelineTopStmt (as : Stmt) (path : List PNode) : Stmt :=
  match findFuncBody path with
  | none => as
  | some fb => findTopLevelStmt as path (some fb)

/-- Fixture without any qualifying outer binding: the scope chain of the
inner object has no enclosing scope. -/
def infoC5 : Info :=
  ⟨fun u => if u = 602 then some objC2 else none,
   fun _ => none,
   fun u => if u = 12 then [[objC2]] else []⟩

/-- Two-file position table: offsets below 100 lie in a.go, the rest in
b.go at line = offset - 100. -/
def fsetCross : Nat → Position :=
  fun p => if p < 100 then ⟨"a.go", p⟩ else ⟨"b.go", p - 100⟩

/-- Cross-file fixture: an outer object declared in b.go at line 7. -/
def objY : Obj := ⟨31, "y", 107, true⟩

/-- Cross-file fixture: the assignment y := 1 at line 7 of a.go. -/
def asW : Stmt := Stmt.assign 901 true [Expr.ident 902 7 "y"] [Expr.lit 903 8]

/-- Cross-file fixture: ancestor path of the assignment. -/
def pathW : List PNode := [PNode.stmt (Stmt.block 904 [asW])]

/-- Empty binding resolution. -/
def infoTriv : Info := ⟨fun _ => none, fun _ => none, fun _ => []⟩

/-- Claim C1 (code bug).  At the exact Scenario D input — the assignment
tt := tt whose single right-hand identifier resolves to the binding of
the loop value tt of the enclosing range statement — the loop-recapture
predicate isTableTestPattern returns false, because the parent of the
assignment is the body block of the range statement and never the range
statement itself; consequently one diagnostic is emitted even with
allow-table-tests enabled (the claim and Scenario D of the specification
expect zero), while with the flag disabled one diagnostic is emitted as
the claim states.  The last conjunct shows the predicate accepts the
idiom when handed the grandparent node, which is what the surrounding
comments and the test expectations of the repository describe. -/
theorem c1_table_test_pattern_bug :
    collectFile fileD = [(asD, pathD)] ∧
    isTableTestPattern infoD asD pathD.head? = false ∧
    run fsetMain cfgTable infoD fileD = [⟨20, reportMsg "tt"⟩] ∧
    run fsetMain cfg0 infoD fileD = [⟨20, reportMsg "tt"⟩] ∧
    isTableTestPattern infoD asD (some (PNode.stmt rngD)) = true :=
  ⟨rfl, rfl, rfl, rfl, rfl⟩

/-- Claim C2 (code bug).  skipFile tests the negation of the
ignore-tests flag: with ignore-tests enabled a node from a_test.go is
analyzed (skip = false), and with the flag disabled — the default — a
node from a_test.go is skipped; nodes of other files are analyzed under
the default.  The claim (and the registered description of the flag,
Avoid checking any _test.go files) states the opposite polarity. -/
theorem c2_skip_file_inverted :
    skipFile fsetTest cfgIgnore 5 = false ∧
    skipFile fsetTest cfg0 5 = true ∧
    skipFile fsetMain cfg0 5 = false :=
  ⟨rfl, by decide, rfl⟩

/-- Claim C3 (counterexample).  A candidate whose assignment has no
enclosing block in the parent map is not silently skipped: the pipeline
returns false and processAssign emits a diagnostic for it. -/
theorem c3_counterexample :
    findEnclosingBlock asC [] = none ∧
    processAssign fsetMain cfg0 infoC asC [] = [⟨30, reportMsg "x"⟩] :=
  ⟨rfl, rfl⟩

/-- Claim C3 (amended).  When the structural navigator finds no
enclosing block for the assignment, every candidate left-hand identifier
with a defining object and a resolved outer binding produces a
diagnostic: the suppression pipeline is bypassed (it returns false)
rather than the candidate being skipped. -/
theorem c3_missing_structure_reports :
    ∀ (fset : Nat → Position) (cfg : Config) (info : Info) (as : Stmt) (path : List PNode)
      (uid pos : Nat) (name : String) (obj outer : Obj),
      findEnclosingBlock as path = none →
      (name == "_") = false →
      info.defs uid = some obj →
      findOuter info name pos obj = some outer →
      processLhs fset cfg info as path (Expr.ident uid pos name) = some ⟨pos, reportMsg name⟩ := by
  intro fset cfg info as path uid pos name obj outer hblock hname hdefs houter
  simp only [processLhs, hname, hdefs, houter, shouldSkipShadow, hblock]
  rfl

/-- Witness for the amended C3 statement at the orphan fixture. -/
theorem c3_missing_structure_reports_witness :
    processLhs fsetMain cfg0 infoC asC [] (Expr.ident 602 30 "x") = some ⟨30, reportMsg "x"⟩ :=
  c3_missing_structure_reports fsetMain cfg0 infoC asC [] 602 30 "x" objC2 objC1
    rfl rfl rfl rfl

/-- Claim C4 (code bug).  With allow-loop-shadow enabled, a
declare-or-reuse assignment sitting directly in the body of a for loop is
NOT suppressed: skipForLoopShadow inspects the parent of the owning
statement, and the parent of a body statement is the body block, not the
loop; the analyzer therefore emits a diagnostic for x := 1 inside
for { x := 1 } with the flag on, where the claim expects suppression.
The last conjunct shows the check fires exactly when the assignment is a
direct child of the for statement (its init or post clause). -/
theorem c4_loop_shadow_bug :
    collectFile fileF = [(asF, pathF)] ∧
    skipForLoopShadow cfgLoop pathF.head? = false ∧
    run fsetMain cfgLoop infoF fileF = [⟨40, reportMsg "x"⟩] ∧
    skipForLoopShadow cfgLoop (some (PNode.stmt forF)) = true :=
  ⟨rfl, rfl, rfl, rfl⟩

/-- The outward walk of findOuter returns the first same-named candidate
that qualifies, expressed as a first-match search over the per-scope
lookups. -/
theorem findOuterWalk_eq_find? (name : String) (identPos : Nat) :
    ∀ (l : List (List Obj)),
      findOuterWalk name identPos l =
        (l.filterMap (fun s => scopeLookup s name)).find?
          (fun o => o.isVar && decide (o.pos < identPos)) := by
  intro l
  induction l with
  | nil => rfl
  | cons s rest ih =>
    unfold findOuterWalk
    cases h : scopeLookup s name with
    | none => simp [List.filterMap_cons, h, ih]
    | some obj =>
      cases hp : (obj.isVar && decide (obj.pos < identPos)) with
      | true => simp [List.filterMap_cons, h, List.find?_cons_of_pos, hp]
      | false => simp [List.filterMap_cons, h, List.find?_cons_of_neg, hp, ih]

/-- Claim C5 (confirmed).  The scope resolver walks the scope chain
starting one level above the scope of the identifier and returns the
first same-named binding that is a plain variable declared strictly
before the identifier; candidates failing either condition are passed
over and the walk continues outward; and when no scope yields a
qualifying binding the resolver returns none and the candidate produces
no diagnostic. -/
theorem c5_find_outer_resolution :
    ∀ (info : Info) (name : String) (identPos : Nat) (inner : Obj)
      (fset : Nat → Position) (cfg : Config) (as : Stmt) (path : List PNode) (uid : Nat),
      findOuter info name identPos inner =
        (((info.scopeOf inner.uid).drop 1).filterMap (fun s => scopeLookup s name)).find?
          (fun o => o.isVar && decide (o.pos < identPos)) ∧
      (info.defs uid = some inner →
       (name == "_") = false →
       findOuter info name identPos inner = none →
       processLhs fset cfg info as path (Expr.ident uid identPos name) = none) := by
  intro info name identPos inner fset cfg as path uid
  constructor
  · unfold findOuter
    cases h : info.scopeOf inner.uid with
    | nil => simp [h]
    | cons s rest => simp [h, findOuterWalk_eq_find?]
  · intro hdefs hname houter
    simp only [processLhs, hname, hdefs, houter]
    rfl

/-- Witness for C5 at a fixture whose scope chain has no enclosing
scope: the resolver yields none and no diagnostic is produced. -/
theorem c5_find_outer_resolution_witness :
    processLhs fsetMain cfg0 infoC5 asC [] (Expr.ident 602 30 "x") = none :=
  (c5_find_outer_resolution infoC5 "x" 30 objC2 fsetMain cfg0 asC [] 602).2 rfl rfl rfl


/-- The guard-if check of the analyzer coincides with the guard shape as
the specification words it. -/
theorem isValidGuardIf_eq_specGuardShape (info : Info) (outer : Obj) :
    ∀ s : Stmt, isValidGuardIf info outer s = specGuardShape info outer s := by
  intro s
  cases s with
  | ifS u ini cond body els =>
    cases els with
    | none => rfl
    | some e => rfl
  | assign u d lhs rhs => rfl
  | block u body => rfl
  | forS u ini cond post body => rfl
  | rangeS u k v x body => rfl
  | ret u res => rfl
  | branch u => rfl
  | exprS u e => rfl

/-- Unfolding equation for the spec-side guard-clause predicate. -/
theorem specGuardClauseOnly_cons (info : Info) (outer : Obj) (stmt s : Stmt) (rest : List Stmt) :
    specGuardClauseOnly info outer stmt (s :: rest) =
      if stmtUid s == stmtUid stmt then true
      else ((!stmtUsesOuter info outer s || specGuardShape info outer s) &&
            specGuardClauseOnly info outer stmt rest) := by
  unfold specGuardClauseOnly
  rw [List.takeWhile_cons]
  cases hu : (stmtUid s == stmtUid stmt) with
  | true => simp [hu]
  | false => simp [hu]

/-- The scan loop of isGuardClauseOnly equals the specification reading
of guard-clause-only. -/
theorem guardScan_eq_spec (info : Info) (outer : Obj) (stmt : Stmt) :
    ∀ l : List Stmt, guardScan info outer stmt l = specGuardClauseOnly info outer stmt l := by
  intro l
  induction l with
  | nil => rfl
  | cons s rest ih =>
    rw [specGuardClauseOnly_cons]
    unfold guardScan
    cases hu : (stmtUid s == stmtUid stmt) with
    | true => simp [hu]
    | false =>
      cases hused : stmtUsesOuter info outer s with
      | false => simp [hu, hused, ih]
      | true =>
        cases hvalid : isValidGuardIf info outer s with
        | false =>
          simp [hu, hused, ← isValidGuardIf_eq_specGuardShape, hvalid]
        | true =>
          simp [hu, hused, ← isValidGuardIf_eq_specGuardShape, hvalid, ih]

/-- Claim C6 (confirmed).  guard-clause-only holds exactly when every
statement of the block strictly preceding the given statement (scanning
stops at its first occurrence) that references the binding anywhere in
its subtree is a single-branch conditional with no alternative branch
whose condition references the binding and whose body is exactly one
return or unconditional jump not itself referencing the binding;
non-referencing statements are ignored. -/
theorem c6_guard_clause_only_spec :
    ∀ (info : Info) (outer : Obj) (stmt : Stmt) (u : Nat) (l : List Stmt),
      isGuardClauseOnly info outer stmt (some (Stmt.block u l)) =
        specGuardClauseOnly info outer stmt l := by
  intro info outer stmt u l
  unfold isGuardClauseOnly blockList
  exact guardScan_eq_spec info outer stmt l

/-- The range-and-break loop over seven eagerly computed check results
is their disjunction. -/
theorem skipLoop_seven (a b c d e f g : Bool) :
    skipLoop false [a, b, c, d, e, f, g] = (a || b || c || d || e || f || g) := by
  cases a <;> cases b <;> cases c <;> cases d <;> cases e <;> cases f <;> cases g <;> rfl

/-- The sequential early-return chain over seven check results is their
disjunction. -/
theorem seq_seven (a b c d e f g : Bool) :
    (if a then true else if b then true else if c then true else if d then true
     else if e then true else if f then true else if g then true else false) =
      (a || b || c || d || e || f || g) := by
  cases a <;> cases b <;> cases c <;> cases d <;> cases e <;> cases f <;> cases g <;> rfl

/-- Claim C7 (confirmed).  The eager evaluation with short-circuit scan
of redef.go and the sequential early-return chain agree on every
input; whenever the structural guards pass, the decision is
exactly (at least one predicate true) for the seven checks in pipeline
order; each check is false once its toggle is disabled; and a candidate
produces a diagnostic exactly when the pipeline does not suppress. -/
theorem c7_pipeline_refinement :
    ∀ (fset : Nat → Position) (cfg : Config) (info : Info) (name : String)
      (identPos : Nat) (outer : Obj) (as : Stmt) (path : List PNode)
      (uid : Nat) (obj : Obj) (b : Stmt),
      shouldSkipShadow fset cfg info name identPos outer as path =
        shouldSkipShadowSeq fset cfg info name identPos outer as path ∧
      findOwningStmt as path = some as ∧
      (findEnclosingBlock as path = some b →
        shouldSkipShadow fset cfg info name identPos outer as path =
          (skipForShortIf cfg path.head? ||
           skipForSameLine fset cfg identPos outer ||
           skipForLoopShadow cfg path.head? ||
           skipForDeadOuter cfg info outer (pipelineTopStmt as path) (findFuncBody path) ||
           skipForErrShadow cfg name outer ||
           skipForGuardShadow cfg info outer (pipelineTopStmt as path) (findFuncBody path) ||
           skipForTableTests cfg info as path.head?)) ∧
      (cfg.allowShortIf = false → skipForShortIf cfg path.head? = false) ∧
      (cfg.allowSameLine = false → skipForSameLine fset cfg identPos outer = false) ∧
      (cfg.allowLoopShadow = false → skipForLoopShadow cfg path.head? = false) ∧
      (cfg.allowDeadOuter = false →
        skipForDeadOuter cfg info outer (pipelineTopStmt as path) (findFuncBody path) = false) ∧
      (cfg.allowErrShadow = false → skipForErrShadow cfg name outer = false) ∧
      (cfg.allowGuardShadow = false →
        skipForGuardShadow cfg info outer (pipelineTopStmt as path) (findFuncBody path) = false) ∧
      (cfg.allowTableTests = false → skipForTableTests cfg info as path.head? = false) ∧
      (info.defs uid = some obj →
       (name == "_") = false →
       findOuter info name identPos obj = some outer →
       processLhs fset cfg info as path (Expr.ident uid identPos name) =
         (if shouldSkipShadow fset cfg info name identPos outer as path then none
          else some ⟨identPos, reportMsg name⟩)) := by
  intro fset cfg info name identPos outer as path uid obj b
  refine ⟨?_, rfl, ?_, ?_, ?_, ?_, ?_, ?_, ?_, ?_, ?_⟩
  · unfold shouldSkipShadow shouldSkipShadowSeq
    cases hb : findEnclosingBlock as path with
    | none => rfl
    | some blk =>
      simp only [findOwningStmt, firstStmtInChain]
      rw [skipLoop_seven, seq_seven]
  · intro hb
    unfold shouldSkipShadow
    rw [hb]
    simp only [findOwningStmt, firstStmtInChain]
    rw [skipLoop_seven]
    rfl
  · intro h; simp [skipForShortIf, h]
  · intro h; simp [skipForSameLine, h]
  · intro h; simp [skipForLoopShadow, h]
  · intro h; simp [skipForDeadOuter, h]
  · intro h; simp [skipForErrShadow, h]
  · intro h; simp [skipForGuardShadow, h]
  · intro h; simp [skipForTableTests, h]
  · intro hdefs hname houter
    simp only [processLhs, hname, hdefs, houter]
    rfl

/-- Witness for C7 at the Scenario D fixture under the default
configuration. -/
theorem c7_pipeline_refinement_witness :
    shouldSkipShadow fsetMain cfg0 infoD "tt" 20 objRangeTT asD pathD =
      shouldSkipShadowSeq fsetMain cfg0 infoD "tt" 20 objRangeTT asD pathD ∧
    shouldSkipShadow fsetMain cfg0 infoD "tt" 20 objRangeTT asD pathD =
      (skipForShortIf cfg0 pathD.head? ||
       skipForSameLine fsetMain cfg0 20 objRangeTT ||
       skipForLoopShadow cfg0 pathD.head? ||
       skipForDeadOuter cfg0 infoD objRangeTT (pipelineTopStmt asD pathD) (findFuncBody pathD) ||
       skipForErrShadow cfg0 "tt" objRangeTT ||
       skipForGuardShadow cfg0 infoD objRangeTT (pipelineTopStmt asD pathD) (findFuncBody pathD) ||
       skipForTableTests cfg0 infoD asD pathD.head?) ∧
    skipForShortIf cfg0 pathD.head? = false ∧
    skipForSameLine fsetMain cfg0 20 objRangeTT = false ∧
    skipForLoopShadow cfg0 pathD.head? = false ∧
    skipForDeadOuter cfg0 infoD objRangeTT (pipelineTopStmt asD pathD) (findFuncBody pathD) = false ∧
    skipForErrShadow cfg0 "tt" objRangeTT = false ∧
    skipForGuardShadow cfg0 infoD objRangeTT (pipelineTopStmt asD pathD) (findFuncBody pathD) = false ∧
    skipForTableTests cfg0 infoD asD pathD.head? = false ∧
    processLhs fsetMain cfg0 infoD asD pathD (Expr.ident 102 20 "tt") =
      (if shouldSkipShadow fsetMain cfg0 infoD "tt" 20 objRangeTT asD pathD then none
       else some ⟨20, reportMsg "tt"⟩) := by
  have h := c7_pipeline_refinement fsetMain cfg0 infoD "tt" 20 objRangeTT asD pathD
    102 objInnerTT (Stmt.block 301 [asD])
  exact ⟨h.1, h.2.2.1 rfl, h.2.2.2.1 rfl, h.2.2.2.2.1 rfl, h.2.2.2.2.2.1 rfl,
    h.2.2.2.2.2.2.1 rfl, h.2.2.2.2.2.2.2.1 rfl, h.2.2.2.2.2.2.2.2.1 rfl,
    h.2.2.2.2.2.2.2.2.2.1 rfl, h.2.2.2.2.2.2.2.2.2.2 rfl rfl rfl⟩

/-- filterMap length is monotone under pointwise definedness
implication. -/
theorem length_filterMap_mono {α β γ : Type} (l : List α) (f : α → Option β) (g : α → Option γ)
    (h : ∀ a, (f a).isSome → (g a).isSome) :
    (l.filterMap f).length ≤ (l.filterMap g).length := by
  induction l with
  | nil => simp
  | cons a t ih =>
    cases hf : f a with
    | none =>
      cases hg : g a with
      | none => simpa [List.filterMap_cons, hf, hg] using ih
      | some y =>
        simp only [List.filterMap_cons, hf, hg, List.length_cons]
        exact Nat.le_succ_of_le ih
    | some x =>
      cases hg : g a with
      | none =>
        have := h a
        rw [hf, hg] at this
        simp at this
      | some y =>
        simp only [List.filterMap_cons, hf, hg, List.length_cons]
        exact Nat.succ_le_succ ih

/-- flatMap length is monotone under pointwise length bounds. -/
theorem length_flatMap_mono {α β γ : Type} (L : List α) (F : α → List β) (G : α → List γ)
    (h : ∀ a, (F a).length ≤ (G a).length) :
    (L.flatMap F).length ≤ (L.flatMap G).length := by
  induction L with
  | nil => simp
  | cons a t ih =>
    simp only [List.flatMap_cons, List.length_append]
    exact Nat.add_le_add (h a) ih

/-- Claim C8 (confirmed).  For every tree and configuration, the number
of emitted diagnostics is bounded by the number of left-hand identifiers
of declare-or-reuse assignments for which the scope resolver finds an
outer binding; at most one diagnostic arises per such identifier
occurrence. -/
theorem c8_diag_count_bound :
    ∀ (fset : Nat → Position) (cfg : Config) (info : Info) (file : File),
      (run fset cfg info file).length ≤ (lhsCandidates info file).length := by
  intro fset cfg info file
  unfold run lhsCandidates
  apply length_flatMap_mono
  intro p
  obtain ⟨s, path⟩ := p
  unfold analyzeNode
  cases hsf : skipFile fset cfg (assignPos s) with
  | true => simp
  | false =>
    simp only [Bool.false_eq_true, if_false]
    cases s with
    | assign u d lhs rhs =>
      cases d with
      | false => simp
      | true =>
        simp only [if_true]
        unfold processAssign assignLhs
        apply length_filterMap_mono
        intro e
        cases e with
        | ident euid epos ename =>
          intro hsome
          simp only [processLhs] at hsome
          cases hn : (ename == "_") with
          | true => rw [hn] at hsome; simp at hsome
          | false =>
            rw [hn] at hsome
            simp only [Bool.false_eq_true, if_false] at hsome
            cases hd : info.defs euid with
            | none => rw [hd] at hsome; simp at hsome
            | some o =>
              rw [hd] at hsome
              cases ho : findOuter info ename epos o with
              | none => simp [ho] at hsome
              | some outer => simp [candLhs, hd, ho]
        | lit euid epos => intro hsome; simp only [processLhs] at hsome; simp at hsome
        | bin euid epos el er => intro hsome; simp only [processLhs] at hsome; simp at hsome
    | block u body => simp
    | ifS u ini cond body els => simp
    | forS u ini cond post body => simp
    | rangeS u k v x body => simp
    | ret u res => simp
    | branch u => simp
    | exprS u e => simp

/-- Claim C9 (confirmed).  A pass leaves the configuration unchanged,
and running it twice on the same tree and configuration appends two
identical diagnostic sequences to the sink: the second emitted segment
equals the first, which is exactly the pure run of the pass. -/
theorem c9_idempotent :
    ∀ (fset : Nat → Position) (info : Info) (file : File) (cfg : Config) (d0 : List Diag),
      (runPass fset info file (cfg, d0)).1 = cfg ∧
      (runPass fset info file (runPass fset info file (cfg, d0))).2.drop
          (runPass fset info file (cfg, d0)).2.length =
        (runPass fset info file (cfg, d0)).2.drop d0.length ∧
      (runPass fset info file (cfg, d0)).2.drop d0.length = run fset cfg info file := by
  intro fset info file cfg d0
  refine ⟨rfl, ?_, ?_⟩
  · simp [runPass, List.drop_left]
  · simp [runPass, List.drop_left]

/-- Claim C10 (confirmed).  The same-line check compares only line
numbers and never file names: for a candidate shadow whose inner
identifier and outer declaration sit at equal line numbers in two
different files, allow-same-line makes the check true and the pipeline
suppresses the shadow. -/
theorem c10_same_line_cross_file :
    ∀ (fset : Nat → Position) (cfg : Config) (info : Info) (name : String)
      (identPos : Nat) (outer : Obj) (as : Stmt) (path : List PNode) (b : Stmt),
      cfg.allowSameLine = true →
      (fset identPos).line = (fset outer.pos).line →
      (fset identPos).filename ≠ (fset outer.pos).filename →
      findEnclosingBlock as path = some b →
      skipForSameLine fset cfg identPos outer = true ∧
      shouldSkipShadow fset cfg info name identPos outer as path = true := by
  intro fset cfg info name identPos outer as path b hflag hline hfile hblock
  have hsl : skipForSameLine fset cfg identPos outer = true := by
    simp [skipForSameLine, hline, hflag]
  refine ⟨hsl, ?_⟩
  unfold shouldSkipShadow
  rw [hblock]
  simp only [findOwningStmt, firstStmtInChain]
  rw [skipLoop_seven, hsl]
  simp

/-- Witness for C10: inner identifier at line 7 of a.go, outer object
declared at line 7 of b.go. -/
theorem c10_same_line_cross_file_witness :
    skipForSameLine fsetCross cfgSameLine 7 objY = true ∧
    shouldSkipShadow fsetCross cfgSameLine infoTriv "y" 7 objY asW pathW = true := by
  have hfile : (fsetCross 7).filename ≠ (fsetCross objY.pos).filename := by decide
  exact c10_same_line_cross_file fsetCross cfgSameLine infoTriv "y" 7 objY asW pathW
    (Stmt.block 904 [asW]) rfl rfl hfile rfl
